import Mathlib

/-!
Verification development for the M9A Update Assistant
(`src/M9A_Update_Assistant.py`), a release-synchronization and deployment
pipeline.  The Python source is shallowly embedded: pure string / list
manipulation is translated to executable Lean functions, filesystem trees
are association lists from relative paths to file contents, and I/O
outcomes that the control flow branches on (network success, archive
validity, per-step success) are explicit boolean inputs.  Machine
integers are `Nat` with explicit `% 2^32` where the source relies on
32-bit wrap-around (CRC-32, SHA-256).
-/

namespace M9A

/-! ## Filename pattern matching

The source matches asset and file names with
`re.match(pattern.replace('*', CLASS), name)` where `pattern` is a
filename template such as `M9A-win-x86_64-v*-Lite.zip` and `CLASS` is a
character class (`[\d.\-a-zA-Z]+` for release assets in
`find_download_url` / `download_latest_release`, `[\d.]+` for the local
lookups in `find_lite_zip` / `extract_deps_from_full_zip`).  In the
compiled regex every `.` of the template matches an arbitrary character
and `re.match` anchors at the start of the name only.  We compile the
template to a token list and implement the (backtracking) matcher
directly. -/

/-- One token of a compiled filename template: a literal character, the
`.` wildcard (any single character), or the `*` segment, which the source
replaces by a one-or-more character-class repetition. -/
inductive PTok where
  | lit (c : Char)
  | any
  | star
deriving DecidableEq, Repr

/-- Compile a filename template (`re.match` pattern before the
`.replace('*', CLASS)` substitution): `*` becomes the class repetition,
`.` the any-character wildcard, every other character a literal. -/
def compilePattern (s : List Char) : List PTok :=
  s.map fun c => if c = '*' then PTok.star else if c = '.' then PTok.any else PTok.lit c

/-- All suffixes obtained from `ds` by consuming one or more leading
characters that satisfy `cls` (used for the greedy-with-backtracking
`CLASS+` segment). -/
def classTails (cls : Char → Bool) : List Char → List (List Char)
  | [] => []
  | d :: ds => if cls d then ds :: classTails cls ds else []

/-- `matchToks cls ps ds` decides whether the compiled pattern `ps`
matches a *prefix* of `ds` (the semantics of `re.match`: anchored at the
start, arbitrary trailing characters allowed). -/
def matchToks (cls : Char → Bool) : List PTok → List Char → Bool
  | [], _ => true
  | PTok.lit c :: ps, ds =>
    match ds with
    | [] => false
    | d :: ds' => c == d && matchToks cls ps ds'
  | PTok.any :: ps, ds =>
    match ds with
    | [] => false
    | _ :: ds' => matchToks cls ps ds'
  | PTok.star :: ps, ds => (classTails cls ds).any fun t => matchToks cls ps t

/-- The character class `[\d.\-a-zA-Z]` substituted for `*` when matching
release-asset names. -/
def assetClass (c : Char) : Bool :=
  c.isDigit || c = '.' || c = '-' || (('a' ≤ c && c ≤ 'z') || ('A' ≤ c && c ≤ 'Z'))

/-- The character class `[\d.]` substituted for `*` in the local zip
lookups (`find_lite_zip`, `extract_deps_from_full_zip`). -/
def liteClass (c : Char) : Bool :=
  c.isDigit || c = '.'

/-- The filename template `M9A-win-x86_64-v*-<keyword>.zip` built in
`download_latest_release` for a resolved variant keyword. -/
def zipPattern (keyword : String) : String :=
  "M9A-win-x86_64-v" ++ "*" ++ "-" ++ keyword ++ ".zip"

/-- Release-asset name matching: `re.match(pattern.replace('*',
r'[\d.\-a-zA-Z]+'), asset_name)` as used in `find_download_url` and in
the GUI-asset collection of `download_latest_release`. -/
def assetMatches (pat : String) (name : String) : Bool :=
  matchToks assetClass (compilePattern pat.data) name.data

/-! ## Shell-style glob matching

`Path.glob` patterns used by the source contain only literal characters
and the `*` wildcard (any character sequence; the names involved contain
no path separator).  Unlike `re.match`, a glob is anchored at both
ends. -/

/-- All suffixes of a list, longest first (`ds` itself down to `[]`). -/
def tails : List Char → List (List Char)
  | [] => [[]]
  | d :: ds => (d :: ds) :: tails ds

/-- `globMatch p ds`: shell-style glob matching of the whole name `ds`
against pattern `p`, where `*` matches any (possibly empty) character
sequence and every other character is literal. -/
def globMatch : List Char → List Char → Bool
  | [], ds => ds.isEmpty
  | p :: ps, ds =>
    if p = '*' then (tails ds).any fun t => globMatch ps t
    else
      match ds with
      | [] => false
      | d :: ds' => p == d && globMatch ps ds'

/-- The glob `M9A-win-x86_64-v*-*.zip` used by `find_lite_zip` (and the
GUI branch of `extract_deps_from_full_zip`) to collect candidate files
before the regex filter. -/
def liteGlob : String := "M9A-win-x86_64-v*-*.zip"

/-- The candidate predicate of `find_lite_zip`: a directory entry is a
candidate iff it passes the glob `M9A-win-x86_64-v*-*.zip` *and* the
regex `cli_zip_pattern.replace('*', r'[\d.]+')` (prefix-anchored). -/
def liteCandidate (cliKeyword : String) (name : String) : Bool :=
  globMatch liteGlob.data name.data &&
    matchToks liteClass (compilePattern (zipPattern cliKeyword).data) name.data

/-! ## Release data model

`get_latest_release_info` returns one GitHub release JSON object; the
fields the pipeline reads are `tag_name`, `body` and the asset list with
`name`, `size`, `browser_download_url` and the optional `digest`
(modelled as `""` when absent, matching `asset.get('digest', '')`). -/

/-- One release asset as consumed by the pipeline. -/
structure Asset where
  name : String
  size : Nat
  url : String
  digest : String
deriving DecidableEq, Repr

/-- The release descriptor fields the pipeline reads. -/
structure ReleaseInfo where
  tag_name : String
  body : String
  assets : List Asset
deriving DecidableEq, Repr

/-! ## Keyword extraction from the release body

`parse_release_keywords` runs `re.findall(r'(\w+)\s*=\s*命令行版', body)`
(and the same with `图形界面版`) and keeps the last capture, falling back
to `Lite` / `Full`.  We implement the `findall` scan for this regex
shape directly: at each position, a maximal `\w+` run followed by
optional whitespace, `=`, optional whitespace and the literal label is a
match; the scan resumes after a match, else advances one character.
(Because `\w` and `\s` are disjoint and `=` is not a word character, the
greedy `\w+` never benefits from backtracking for this regex.) -/

/-- Python's `\w` for the alphabets that occur in release bodies: ASCII
alphanumerics, `_`, and CJK unified ideographs (the role labels
`命令行版` / `图形界面版` consist of word characters). -/
def isWordChar (c : Char) : Bool :=
  c.isAlphanum || c = '_' || (0x4E00 ≤ c.toNat && c.toNat ≤ 0x9FFF)

/-- Whitespace as matched by `\s` (the characters occurring in release
bodies). -/
def isSpaceChar (c : Char) : Bool :=
  c = ' ' || c = '\t' || c = '\n' || c = '\r'

/-- Try to match `(\w+)\s*=\s*<label>` at the start of `s`; on success
return the captured token and the remainder of `s` after the match. -/
def tryMatchAt (label : List Char) (s : List Char) : Option (List Char × List Char) :=
  let w := s.takeWhile isWordChar
  if w.isEmpty then none
  else
    match (s.dropWhile isWordChar).dropWhile isSpaceChar with
    | '=' :: r =>
      let r' := r.dropWhile isSpaceChar
      if label.isPrefixOf r' then some (w, r'.drop label.length) else none
    | _ => none

/-- The `re.findall` scan for `(\w+)\s*=\s*<label>`: leftmost,
non-overlapping matches, resuming after each match.  Fuelled by the
input length (each step consumes at least one character). -/
def findallAux (label : List Char) : Nat → List Char → List (List Char)
  | 0, _ => []
  | _ + 1, [] => []
  | fuel + 1, c :: rest =>
    match tryMatchAt label (c :: rest) with
    | some (w, after) => w :: findallAux label fuel after
    | none => findallAux label fuel rest

/-- `re.findall(r'(\w+)\s*=\s*<label>', body)`. -/
def findallTokens (label : List Char) (body : List Char) : List (List Char) :=
  findallAux label body.length body

/-- The role label `命令行版` (minimal / CLI build). -/
def cliLabel : List Char := "命令行版".data

/-- The role label `图形界面版` (full / GUI build). -/
def guiLabel : List Char := "图形界面版".data

/-- The CLI-role tokens captured from a release body, in order. -/
def cliTokens (body : String) : List String :=
  (findallTokens cliLabel body.data).map fun w => ⟨w⟩

/-- The GUI-role tokens captured from a release body, in order. -/
def guiTokens (body : String) : List String :=
  (findallTokens guiLabel body.data).map fun w => ⟨w⟩

/-- The dictionary returned by `parse_release_keywords`. -/
structure Keywords where
  cli : String
  gui : String
  gui_keywords : List String
deriving DecidableEq, Repr

/-- `parse_release_keywords`: empty body falls back to the defaults;
otherwise the last captured token of each role wins, with `Lite` /
`Full` as defaults.  (The `version_sizes` map the source also builds is
used only for log output and is omitted.) -/
def parseReleaseKeywords (body : String) : Keywords :=
  if body.isEmpty then
    { cli := "Lite", gui := "Full", gui_keywords := ["Full"] }
  else
    let cks := cliTokens body
    let gks := guiTokens body
    { cli := cks.getLastD "Lite"
      gui := gks.getLastD "Full"
      gui_keywords := if gks.isEmpty then ["Full"] else gks }

/-! ## Download-URL selection

`find_download_url` filters the asset list by the compiled pattern and
returns the first match's `browser_download_url`; with
`select_smallest` and several matches it first sorts the matches by
`size` (Python's stable `list.sort`) so that the first element is the
smallest.  The inline GUI block of `download_latest_release` does the
same over the union of all GUI patterns.  The embedding returns the
chosen `Asset` (the source returns its `browser_download_url` field).
Python's sort is stable; a stable insertion sort by `size` models it. -/

/-- Stable insertion of an asset into a size-sorted list (strictly
smaller elements move ahead; equal sizes keep the original order). -/
def insertBySize (a : Asset) : List Asset → List Asset
  | [] => [a]
  | b :: bs => if a.size < b.size then a :: b :: bs else b :: insertBySize a bs

/-- Stable sort of an asset list by byte size (`list.sort(key=size)`). -/
def sortBySize : List Asset → List Asset
  | [] => []
  | a :: as_ => insertBySize a (sortBySize as_)

/-- `find_download_url(release_info, pattern, select_smallest)`: the
matching assets in release order; `none` when there is no match,
otherwise the head of the (sorted, when `select_smallest` and more than
one match) match list. -/
def findDownloadUrl (rel : ReleaseInfo) (pat : String) (selectSmallest : Bool) : Option Asset :=
  let matched := rel.assets.filter fun a => assetMatches pat a.name
  match matched with
  | [] => none
  | _ :: _ =>
    if selectSmallest && matched.length > 1 then (sortBySize matched).head?
    else matched.head?

/-- The GUI candidate list built inline in `download_latest_release`:
for every GUI pattern, every matching asset (pattern-major order, as in
the nested `for` loops; an asset matching several patterns appears once
per pattern). -/
def guiMatched (rel : ReleaseInfo) (guiPats : List String) : List Asset :=
  guiPats.flatMap fun p => rel.assets.filter fun a => assetMatches p a.name

/-- The GUI asset chosen by `download_latest_release`: the head of the
size-sorted candidate list (`all_gui_assets.sort(key=size)` then
`all_gui_assets[0]`), `none` when no asset matches any GUI pattern. -/
def selectGuiAsset (rel : ReleaseInfo) (guiPats : List String) : Option Asset :=
  (sortBySize (guiMatched rel guiPats)).head?

/-! ## Small string helpers used by `download_latest_release` -/

/-- Split a character list at `\n` (Python `str.split('\n')`,
preserving empty pieces). -/
def splitLines (cs : List Char) : List (List Char) :=
  cs.foldr
    (fun c acc =>
      match acc with
      | l :: ls => if c = '\n' then [] :: l :: ls else (c :: l) :: ls
      | [] => [[c]])
    [[]]

/-- Substring test: `needle in hay` (Python `in` on strings). -/
def containsSub (needle hay : List Char) : Bool :=
  (tails hay).any fun t => needle.isPrefixOf t

/-- Remove every occurrence of `sub` from the input, scanning left to
right (Python `str.replace(sub, '')`); fuelled by the input length
(each step consumes at least one character). -/
def eraseAllAux (sub : List Char) : Nat → List Char → List Char
  | 0, cs => cs
  | _ + 1, [] => []
  | fuel + 1, c :: cs =>
    if sub.isPrefixOf (c :: cs) && !sub.isEmpty then
      eraseAllAux sub fuel ((c :: cs).drop sub.length)
    else c :: eraseAllAux sub fuel cs

/-- Remove every occurrence of `sub` from `cs` (Python
`str.replace(sub, '')`). -/
def eraseAll (sub cs : List Char) : List Char :=
  eraseAllAux sub cs.length cs

/-- Split a character list at `-` (Python `str.split('-')`). -/
def splitDash (cs : List Char) : List (List Char) :=
  cs.foldr
    (fun c acc =>
      match acc with
      | l :: ls => if c = '-' then [] :: l :: ls else (c :: l) :: ls
      | [] => [[c]])
    [[]]

/-- `name.split('-')[-1].replace('.zip', '')`: the variant keyword the
source recovers from an asset filename. -/
def lastDashToken (name : String) : String :=
  ⟨eraseAll ".zip".data ((splitDash name.data).getLastD [])⟩

/-- `tag_name.replace('v', '')`: drops every `v` (used to build the
cached-file version pattern). -/
def stripV (tag : String) : String :=
  ⟨tag.data.filter fun c => c ≠ 'v'⟩

/-- `pattern.replace('*', version)`: substitute the resolved version for
the template wildcard, giving the glob used for the CLI cache lookup. -/
def replaceStar (pat : String) (version : String) : String :=
  ⟨pat.data.flatMap fun c => if c = '*' then version.data else [c]⟩

/-! ## SHA-256

`_calculate_sha256` streams the file through `hashlib.sha256` and
returns `hexdigest()` (lowercase hex).  The hash is implemented here
over `Nat` with explicit reduction modulo `2^32`. -/

/-- Truncate to a 32-bit word. -/
def w32 (n : Nat) : Nat := n % 4294967296

/-- 32-bit right rotation. -/
def rotr (k x : Nat) : Nat := w32 ((x >>> k) ||| (x <<< (32 - k)))

/-- 32-bit bitwise complement. -/
def not32 (x : Nat) : Nat := x ^^^ 0xFFFFFFFF

/-- SHA-256 `Ch` function. -/
def shaCh (e f g : Nat) : Nat := (e &&& f) ^^^ (not32 e &&& g)

/-- SHA-256 `Maj` function. -/
def shaMaj (a b c : Nat) : Nat := (a &&& b) ^^^ (a &&& c) ^^^ (b &&& c)

/-- SHA-256 Σ₀. -/
def bsig0 (x : Nat) : Nat := rotr 2 x ^^^ rotr 13 x ^^^ rotr 22 x

/-- SHA-256 Σ₁. -/
def bsig1 (x : Nat) : Nat := rotr 6 x ^^^ rotr 11 x ^^^ rotr 25 x

/-- SHA-256 σ₀. -/
def ssig0 (x : Nat) : Nat := rotr 7 x ^^^ rotr 18 x ^^^ (x >>> 3)

/-- SHA-256 σ₁. -/
def ssig1 (x : Nat) : Nat := rotr 17 x ^^^ rotr 19 x ^^^ (x >>> 10)

/-- The 64 SHA-256 round constants of FIPS 180-4 (decimal). -/
def shaK : List Nat :=
  [1116352408, 1899447441, 3049323471, 3921009573, 961987163, 1508970993,
   2453635748, 2870763221, 3624381080, 310598401, 607225278, 1426881987,
   1925078388, 2162078206, 2614888103, 3248222580, 3835390401, 4022224774,
   264347078, 604807628, 770255983, 1249150122, 1555081692, 1996064986,
   2554220882, 2821834349, 2952996808, 3210313671, 3336571891, 3584528711,
   113926993, 338241895, 666307205, 773529912, 1294757372, 1396182291,
   1695183700, 1986661051, 2177026350, 2456956037, 2730485921, 2820302411,
   3259730800, 3345764771, 3516065817, 3600352804, 4094571909, 275423344,
   430227734, 506948616, 659060556, 883997877, 958139571, 1322822218,
   1537002063, 1747873779, 1955562222, 2024104815, 2227730452, 2361852424,
   2428436474, 2756734187, 3204031479, 3329325298]

/-- The SHA-256 initial hash state of FIPS 180-4 (decimal). -/
def shaH0 : List Nat :=
  [1779033703, 3144134277, 1013904242, 2773480762,
   1359893119, 2600822924, 528734635, 1541459225]

/-- `k` bytes of `n`, big-endian (most significant first). -/
def beBytes : Nat → Nat → List Nat
  | 0, _ => []
  | k + 1, n => ((n >>> (8 * k)) &&& 255) :: beBytes k n

/-- SHA-256 padding: append `0x80`, zero bytes up to 56 mod 64, then the
bit length as 8 big-endian bytes. -/
def shaPad (msg : List Nat) : List Nat :=
  msg ++ 0x80 :: List.replicate ((119 - msg.length % 64) % 64) 0 ++ beBytes 8 (8 * msg.length)

/-- Pack bytes into big-endian 32-bit words. -/
def toWords : List Nat → List Nat
  | b0 :: b1 :: b2 :: b3 :: r =>
    ((b0 <<< 24) ||| (b1 <<< 16) ||| (b2 <<< 8) ||| b3) :: toWords r
  | _ => []

/-- Chunk a word list into 16-word blocks (fuelled by the list
length). -/
def toBlocksAux : Nat → List Nat → List (List Nat)
  | 0, _ => []
  | _ + 1, [] => []
  | fuel + 1, ws => ws.take 16 :: toBlocksAux fuel (ws.drop 16)

/-- Chunk a word list into 16-word blocks. -/
def toBlocks (ws : List Nat) : List (List Nat) := toBlocksAux ws.length ws

/-- Extend the (reversed) message schedule by `n` further words:
`W[i] = σ₁(W[i-2]) + W[i-7] + σ₀(W[i-15]) + W[i-16]`. -/
def extendW : Nat → List Nat → List Nat
  | 0, acc => acc
  | n + 1, acc =>
    extendW n
      (w32 (ssig1 (acc.getD 1 0) + acc.getD 6 0 + ssig0 (acc.getD 14 0) + acc.getD 15 0) :: acc)

/-- The 64-word message schedule of one block. -/
def schedule (block : List Nat) : List Nat := (extendW 48 block.reverse).reverse

/-- One SHA-256 round on the 8-word working state. -/
def shaRound (st : List Nat) (kw : Nat × Nat) : List Nat :=
  match st with
  | [a, b, c, d, e, f, g, h] =>
    let t1 := w32 (h + bsig1 e + shaCh e f g + kw.1 + kw.2)
    let t2 := w32 (bsig0 a + shaMaj a b c)
    [w32 (t1 + t2), a, b, c, w32 (d + t1), e, f, g]
  | _ => st

/-- Compress one 16-word block into the hash state. -/
def shaCompress (st : List Nat) (block : List Nat) : List Nat :=
  let out := (shaK.zip (schedule block)).foldl shaRound st
  List.zipWith (fun x y => w32 (x + y)) st out

/-- SHA-256 digest of a byte sequence, as 32 bytes. -/
def sha256bytes (msg : List Nat) : List Nat :=
  ((toBlocks (toWords (shaPad msg))).foldl shaCompress shaH0).flatMap (beBytes 4)

/-- Lowercase hex digit. -/
def hexDigit (n : Nat) : Char := "0123456789abcdef".data.getD n '0'

/-- Lowercase hex encoding of a byte sequence. -/
def hexOfBytes (bs : List Nat) : List Char :=
  bs.flatMap fun b => [hexDigit (b / 16), hexDigit (b % 16)]

/-- `_calculate_sha256`: the lowercase hex SHA-256 digest of the file's
bytes (`hashlib.sha256(...).hexdigest()`). -/
def sha256hex (msg : List Nat) : String := ⟨hexOfBytes (sha256bytes msg)⟩

/-- Decode a hex string (either case) to bytes; partial trailing digits
are dropped, non-hex characters count as 0 (only applied to hex
strings). -/
def hexVal (c : Char) : Nat :=
  if c.isDigit then c.toNat - '0'.toNat
  else if 'a' ≤ c && c ≤ 'f' then c.toNat - 'a'.toNat + 10
  else if 'A' ≤ c && c ≤ 'F' then c.toNat - 'A'.toNat + 10
  else 0

/-- Decode a hex character list (either case) to bytes. -/
def hexDecode : List Char → List Nat
  | a :: b :: r => (hexVal a * 16 + hexVal b) :: hexDecode r
  | _ => []

/-! ## Published-digest lookup and integrity verification -/

/-- Lowercase the ASCII letters of a line (Python `str.lower()` for the
characters relevant here). -/
def lowerChars (cs : List Char) : List Char := cs.map Char.toLower

/-- A lowercase hex digit, `[0-9a-f]`. -/
def isHexLower (c : Char) : Bool := c.isDigit || ('a' ≤ c && c ≤ 'f')

/-- `re.search(r'[0-9a-f]{64}', line)`: the leftmost run of 64
consecutive lowercase-hex characters, if any. -/
def searchHex64 : List Char → Option (List Char)
  | [] => none
  | c :: rest =>
    let t := (c :: rest).take 64
    if t.length == 64 && t.all isHexLower then some t else searchHex64 rest

/-- The body-scan fallback of `_get_asset_sha256`: the first line that
contains the asset name and (case-insensitively) `sha256` and in whose
lowercased text a 64-hex-digit token occurs yields that token. -/
def bodyDigest (body : String) (assetName : String) : Option String :=
  ((splitLines body.data).findSome? fun line =>
    if containsSub assetName.data line && containsSub "sha256".data (lowerChars line) then
      searchHex64 (lowerChars line)
    else none).map fun w => (⟨w⟩ : String)

/-- `_get_asset_sha256`: first the asset descriptor whose `name` equals
the filename and whose `digest` starts with `sha256:` (prefix stripped,
casing preserved); failing that, the body scan. -/
def getAssetSha256 (rel : ReleaseInfo) (assetName : String) : Option String :=
  match rel.assets.findSome? fun a =>
      if a.name == assetName && "sha256:".data.isPrefixOf a.digest.data then
        some ((⟨a.digest.data.drop 7⟩ : String))
      else none with
  | some d => some d
  | none => bodyDigest rel.body assetName

/-- `_verify_zip_integrity`: a structurally invalid archive fails
unconditionally (`zipfile.BadZipFile`); otherwise, when a digest is
published the recomputed lowercase hex digest must equal it exactly as a
string, and when none is published structural validity alone is
accepted.  Whether `zipfile.ZipFile(...).namelist()` succeeds is an I/O
outcome and enters the embedding as the boolean `validZip`; the local
file's bytes enter as `fileBytes`. -/
def verifyZipIntegrity (validZip : Bool) (fileBytes : List Nat)
    (rel : ReleaseInfo) (zipFilename : String) : Bool :=
  if !validZip then false
  else
    match getAssetSha256 rel zipFilename with
    | some expected => sha256hex fileBytes == expected
    | none => true

/-! ## CRC-32 and the config-backup key

`backup_config` and `restore_config` both key the per-target backup
directory as `config_{crc32(path.encode()) & 0xffffffff:08x}`. -/

/-- One bit step of the reflected CRC-32 (polynomial `0xEDB88320`). -/
def crcBit (c : Nat) : Nat :=
  if c &&& 1 == 1 then (c >>> 1) ^^^ 0xEDB88320 else c >>> 1

/-- Process one byte of input into the CRC accumulator. -/
def crcByte (c b : Nat) : Nat :=
  crcBit (crcBit (crcBit (crcBit (crcBit (crcBit (crcBit (crcBit (c ^^^ (b &&& 255)))))))))

/-- `zlib.crc32` over a byte sequence. -/
def crc32 (bs : List Nat) : Nat :=
  (bs.foldl crcByte 0xFFFFFFFF) ^^^ 0xFFFFFFFF

/-- UTF-8 encoding of one character (Python `str.encode()`). -/
def utf8Char (c : Char) : List Nat :=
  let n := c.toNat
  if n < 0x80 then [n]
  else if n < 0x800 then [0xC0 ||| (n >>> 6), 0x80 ||| (n &&& 0x3F)]
  else if n < 0x10000 then
    [0xE0 ||| (n >>> 12), 0x80 ||| ((n >>> 6) &&& 0x3F), 0x80 ||| (n &&& 0x3F)]
  else
    [0xF0 ||| (n >>> 18), 0x80 ||| ((n >>> 12) &&& 0x3F),
     0x80 ||| ((n >>> 6) &&& 0x3F), 0x80 ||| (n &&& 0x3F)]

/-- UTF-8 encoding of a string (Python `str.encode()`). -/
def utf8Bytes (s : String) : List Nat := s.data.flatMap utf8Char

/-- Fixed-width 8-digit lowercase hex rendering (`f"{n:08x}"` for
`n < 2^32`). -/
def toHex8 (n : Nat) : String :=
  ⟨[hexDigit (n / 16 ^ 7 % 16), hexDigit (n / 16 ^ 6 % 16), hexDigit (n / 16 ^ 5 % 16),
    hexDigit (n / 16 ^ 4 % 16), hexDigit (n / 16 ^ 3 % 16), hexDigit (n / 16 ^ 2 % 16),
    hexDigit (n / 16 % 16), hexDigit (n % 16)]⟩

/-- The per-target backup directory name used by both `backup_config`
and `restore_config`:
`f"config_{zlib.crc32(m9a_folder.encode()) & 0xffffffff:08x}"`. -/
def configBackupDirName (m9aFolder : String) : String :=
  "config_" ++ toHex8 (crc32 (utf8Bytes m9aFolder) &&& 0xFFFFFFFF)

/-! ## `download_latest_release`

The fetch phase branches on I/O outcomes: which files already sit in
the staging `ZIP` directory, whether a network download succeeds,
whether `_verify_zip_integrity` passes for a local file, and whether the
CLI archive contains a `deps/` entry.  These enter the embedding as an
environment of oracles keyed by filename; the asset-selection, cache
and retry-decision logic is embedded exactly.  The embedding counts the
`download_file_with_progress` calls made for each artifact. -/

/-- I/O outcomes the fetch phase branches on. -/
structure FetchEnv where
  /-- Filenames present in the staging `ZIP` directory before the run. -/
  cached : List String
  /-- Success of `download_file_with_progress` for a filename (after its
  internal retry loop). -/
  downloadOk : String → Bool
  /-- Result of `_verify_zip_integrity` for a local file. -/
  verifyOk : String → Bool
  /-- Result of `check_lite_zip_has_deps` for a CLI zip path. -/
  liteHasDeps : String → Bool
  /-- The `full_download_enabled` configuration flag. -/
  fullDownloadEnabled : Bool

/-- The dictionary returned by `download_latest_release`, extended with
the number of network fetches performed per artifact. -/
structure DLResult where
  files : List String
  cliKeyword : String
  guiKeyword : String
  cliFetches : Nat
  guiFetches : Nat
deriving DecidableEq, Repr

/-- Download-then-verify of one artifact (the cache-miss path): the
file is obtained iff the download succeeds and the downloaded copy
verifies; either failure aborts `download_latest_release`. -/
def fetchVerify (env : FetchEnv) (filename : String) : Option String :=
  if env.downloadOk filename then
    if env.verifyOk filename then some filename else none
  else none

/-- Cache-or-fetch of one artifact: a staged file matching `cacheGlob`
that passes verification is reused with zero fetches; a failing cached
copy forces a fresh download, as does an empty cache.  Returns the
obtained file (if any) and the fetch count. -/
def cacheOrFetch (env : FetchEnv) (cacheGlob : String) (filename : String) :
    Option String × Nat :=
  match env.cached.filter fun f => globMatch cacheGlob.data f.data with
  | f :: _ => if env.verifyOk f then (some f, 0) else (fetchVerify env filename, 1)
  | [] => (fetchVerify env filename, 1)

/-- The glob `download_latest_release` uses to look for a cached GUI
zip: `f"M9A-win-x86_64-{version_pattern}-{gui_keyword}.zip"` (note: no
`v` before the version, unlike the asset naming convention). -/
def guiCacheGlob (versionPattern guiKeyword : String) : String :=
  "M9A-win-x86_64-" ++ versionPattern ++ "-" ++ guiKeyword ++ ".zip"

/-- `download_latest_release` given an already-fetched release: keyword
resolution, asset selection, cache lookup, fetch and verification for
the CLI artifact and (when needed and available) the GUI artifact.
`none` models `return None`.  The source returns each chosen asset's
`browser_download_url` and derives the local filename from it
(`Path(url).name`); in the embedding the filename is the asset's
`name`. -/
def downloadLatestRelease (rel : ReleaseInfo) (env : FetchEnv) : Option DLResult :=
  let kws := parseReleaseKeywords rel.body
  let cliKeyword := kws.cli
  let guiKeywords := kws.gui_keywords
  let cliZipPattern := zipPattern cliKeyword
  let guiZipPatterns := guiKeywords.map zipPattern
  let cliUrl? := findDownloadUrl rel cliZipPattern false
  let guiChosen? := selectGuiAsset rel guiZipPatterns
  let guiKeyword :=
    match guiChosen? with
    | some a => lastDashToken a.name
    | none => guiKeywords.headD "Full"
  let versionPattern := stripV rel.tag_name
  match cliUrl? with
  | none => none
  | some cliAsset =>
    match cacheOrFetch env (replaceStar cliZipPattern versionPattern) cliAsset.name with
    | (none, _) => none
    | (some cliZip, cliFetches) =>
      let needGui := if env.liteHasDeps cliZip then false else env.fullDownloadEnabled
      match guiChosen?, needGui with
      | some guiAsset, true =>
        match cacheOrFetch env (guiCacheGlob versionPattern guiKeyword) guiAsset.name with
        | (none, _) => none
        | (some guiZip, guiFetches) =>
          some ⟨[cliZip, guiZip], cliKeyword, guiKeyword, cliFetches, guiFetches⟩
      | _, _ => some ⟨[cliZip], cliKeyword, guiKeyword, cliFetches, 0⟩

/-! ## The per-target deployment sequence and the orchestrating loop

The per-target loop body of `run_update` calls `backup_config`,
`clean_m9a_folder`, `extract_zip_with_progress`, `restore_config` and
`extract_deps_from_full_zip`; each call's success is an I/O outcome and
enters the embedding as a boolean.  The embedding records which steps a
target attempts and the per-target result (`True` iff the loop body
reaches its end without `continue`). -/

/-- The possible outcomes of the five per-target step calls. -/
structure StepOutcomes where
  /-- `backup_config`: `False` both when `target/config` is absent and
  when copying it fails with an I/O error. -/
  backup : Bool
  /-- `clean_m9a_folder` (the wipe step). -/
  clean : Bool
  /-- `extract_zip_with_progress` of the CLI zip (the install step). -/
  install : Bool
  /-- `restore_config`. -/
  restore : Bool
  /-- `extract_deps_from_full_zip`. -/
  deps : Bool
deriving DecidableEq, Repr

/-- The five deployment steps, in the order the loop body runs them. -/
inductive Step where
  | backup
  | wipe
  | install
  | restore
  | deps
deriving DecidableEq, Repr

/-- One iteration of the per-target loop of `run_update`: the steps the
target attempts (in order) and whether the target succeeds (no
`continue` taken; note that a `False` from `backup_config` is only
logged and disables the restore step). -/
def deployTarget (o : StepOutcomes) (needDeps : Bool) : Bool × List Step :=
  let cb := o.backup
  if !o.clean then (false, [Step.backup, Step.wipe])
  else if !o.install then (false, [Step.backup, Step.wipe, Step.install])
  else if cb && !o.restore then (false, [Step.backup, Step.wipe, Step.install, Step.restore])
  else if needDeps && !o.deps then
    (false, [Step.backup, Step.wipe, Step.install] ++
      (if cb then [Step.restore] else []) ++ [Step.deps])
  else
    (true, [Step.backup, Step.wipe, Step.install] ++
      (if cb then [Step.restore] else []) ++ (if needDeps then [Step.deps] else []))

/-- The per-target loop of `run_update`: `all_success` starts `True`,
is cleared by any failed target, and every target is processed
regardless of earlier failures.  Returns the final `all_success` and
the per-target results in order. -/
def runUpdateLoop (needDeps : Bool) : List StepOutcomes → Bool → Bool × List Bool
  | [], allSuccess => (allSuccess, [])
  | o :: rest, allSuccess =>
    let r := (deployTarget o needDeps).1
    let tl := runUpdateLoop needDeps rest (allSuccess && r)
    (tl.1, r :: tl.2)

/-- The overall result of the per-target loop. -/
def runUpdateAll (outs : List StepOutcomes) (needDeps : Bool) : Bool :=
  (runUpdateLoop needDeps outs true).1

/-- The per-target results of the loop, in target order. -/
def runUpdateResults (outs : List StepOutcomes) (needDeps : Bool) : List Bool :=
  (runUpdateLoop needDeps outs true).2

/-- The zip-assignment scan of `run_update`: over the downloaded file
list, a path containing the CLI keyword becomes the CLI zip, else a
path containing the GUI keyword becomes the GUI zip (later paths
overwrite earlier ones). -/
def pickZips (files : List String) (cliKw guiKw : String) : Option String × Option String :=
  files.foldl
    (fun acc f =>
      if containsSub cliKw.data f.data then (some f, acc.2)
      else if containsSub guiKw.data f.data then (acc.1, some f)
      else acc)
    (none, none)

/-- `run_update` end to end: resolution via `download_latest_release`,
fallback to `find_lite_zip` (its result enters as `localLite`; `none`
models "no candidate file found"), the global decision whether `deps`
extraction is needed, and the per-target loop.  Returns the overall
result and the per-target results (empty iff the run aborted before
processing any target).  The unconditional `clean_temp_folder` /
`_cleanup_old_logs` calls at the end do not affect the result and are
omitted. -/
def runUpdate (rel : ReleaseInfo) (env : FetchEnv) (localLite : Option String)
    (outs : List StepOutcomes) : Bool × List Bool :=
  let dl := downloadLatestRelease rel env
  let (cliZip?, guiZip?) :=
    match dl with
    | some r => pickZips r.files r.cliKeyword r.guiKeyword
    | none => (none, none)
  let cliZip? :=
    match cliZip? with
    | some c => some c
    | none => localLite
  match cliZip? with
  | none => (false, [])
  | some cliZip =>
    let needDeps := if env.liteHasDeps cliZip then false else guiZip?.isSome
    runUpdateLoop needDeps outs true

/-! ## Filesystem model of one target's deployment

For the config-preservation property the filesystem effects of the four
steps are modelled on association lists from relative paths to file
contents (`List.lookup` semantics: the first binding of a path wins, so
`src ++ dst` is exactly `shutil.copytree(src, dst, dirs_exist_ok=True)`
— files of `src` overwrite, other files of `dst` survive).  A target's
state is its directory tree, the staging backup directory for its key
(`temp/config_<hash>`), and whether that directory exists.  The model
is the success path of each step (I/O failures are the orchestration
model's concern). -/

/-- One directory tree: relative path to file content, first binding
wins. -/
abbrev FileTree := List (String × String)

/-- A path lies in the target's `config` subtree. -/
def isConfigPath (p : String) : Bool := "config/".data.isPrefixOf p.data

/-- The state of one target's deployment: the target tree, the backup
directory for this target's key, and whether that directory exists. -/
structure TState where
  fs : FileTree
  slot : FileTree
  slotExists : Bool

/-- `backup_config`: when the target has a `config` subtree, copy it
into the backup directory (merging over any pre-existing backup, per
`dirs_exist_ok=True`) and report success; otherwise report failure and
change nothing. -/
def backupConfig (t : TState) : TState × Bool :=
  if t.fs.any fun e => isConfigPath e.1 then
    ({ t with slot := (t.fs.filter fun e => isConfigPath e.1) ++ t.slot, slotExists := true },
      true)
  else (t, false)

/-- `clean_m9a_folder` (success path): every entry directly inside the
target is deleted. -/
def cleanFolder (t : TState) : TState × Bool :=
  ({ t with fs := [] }, true)

/-- `extract_zip_with_progress` (success path): every archive entry is
extracted into the target, overwriting existing files. -/
def installZip (archive : FileTree) (t : TState) : TState × Bool :=
  ({ t with fs := archive ++ t.fs }, true)

/-- `restore_config` (success path): when the backup directory exists,
its files are copied back over `target/config` (`dirs_exist_ok=True`);
when it does not, failure and no change. -/
def restoreConfig (t : TState) : TState × Bool :=
  if t.slotExists then ({ t with fs := t.slot ++ t.fs }, true)
  else (t, false)

/-- The per-target filesystem cycle of `run_update` in step order:
backup, wipe, install, and — only when the backup step reported success
— restore. -/
def deployCycle (archive : FileTree) (t : TState) : TState :=
  let (t1, cb) := backupConfig t
  let (t2, _) := cleanFolder t1
  let (t3, _) := installZip archive t2
  if cb then (restoreConfig t3).1 else t3

/-! ## Concrete step outcomes used by several statements -/

/-- All five step calls succeed. -/
def allOk : StepOutcomes := ⟨true, true, true, true, true⟩

/-- The wipe step (`clean_m9a_folder`) fails; everything else would
succeed. -/
def wipeFail : StepOutcomes := ⟨true, false, true, true, true⟩

/-- `backup_config` returns `False` (an I/O failure or an absent
`config`); everything else succeeds. -/
def backupFail : StepOutcomes := ⟨false, true, true, true, true⟩

/-! ## Lemmas about the per-target loop -/

/-- The per-target result list is the pointwise image of the outcome
list: each target's result depends on that target's step outcomes
only. -/
theorem runUpdateLoop_results (nd : Bool) (outs : List StepOutcomes) :
    ∀ acc : Bool, (runUpdateLoop nd outs acc).2 = outs.map fun o => (deployTarget o nd).1 := by
  induction outs with
  | nil => intro acc; rfl
  | cons o rest ih => intro acc; simp [runUpdateLoop, ih]

/-- The loop's final `all_success` is the initial accumulator conjoined
with every per-target result. -/
theorem runUpdateLoop_overall (nd : Bool) (outs : List StepOutcomes) :
    ∀ acc : Bool,
      (runUpdateLoop nd outs acc).1 = (acc && ((outs.map fun o => (deployTarget o nd).1).all id)) := by
  induction outs with
  | nil => intro acc; simp [runUpdateLoop]
  | cons o rest ih => intro acc; simp [runUpdateLoop, ih, Bool.and_assoc]

/-- C2: for every release body, each role resolves to the token of the
last `<token> = <role-label>` occurrence (`命令行版` for the minimal/CLI
role, `图形界面版` for the full/GUI role), with the hard-coded defaults
`Lite` / `Full` when a role has no occurrence; in particular a body with
`Alpha = 命令行版` followed by `Beta = 命令行版` resolves the minimal
token to `Beta`. -/
theorem parse_release_keywords_last_occurrence_wins :
    (∀ body : String,
        (parseReleaseKeywords body).cli = (cliTokens body).getLastD "Lite" ∧
        (parseReleaseKeywords body).gui = (guiTokens body).getLastD "Full") ∧
    cliTokens "Alpha = 命令行版\nBeta = 命令行版" = ["Alpha", "Beta"] ∧
    (parseReleaseKeywords "Alpha = 命令行版\nBeta = 命令行版").cli = "Beta" := by
  refine ⟨fun body => ?_, by decide, by decide⟩
  by_cases h : body.isEmpty
  · have hb : body = "" := (String.isEmpty_iff body).mp h
    subst hb
    exact ⟨rfl, rfl⟩
  · simp only [parseReleaseKeywords, h]
    exact ⟨rfl, rfl⟩

/-- C4: the per-target loop of `run_update` attempts every configured
target regardless of earlier failures — each target's result is a
function of its own step outcomes — and the overall result is the
conjunction of the per-target results; concretely, with a wipe failure
on the middle one of three targets the results are
`[true, false, true]` and the overall result is `false`. -/
theorem run_update_overall_is_and :
    (∀ (outs : List StepOutcomes) (nd : Bool),
        runUpdateAll outs nd = (runUpdateResults outs nd).all id ∧
        runUpdateResults outs nd = outs.map fun o => (deployTarget o nd).1) ∧
    runUpdateResults [allOk, wipeFail, allOk] true = [true, false, true] ∧
    runUpdateAll [allOk, wipeFail, allOk] true = false := by
  refine ⟨fun outs nd => ⟨?_, runUpdateLoop_results nd outs true⟩, by decide, by decide⟩
  simp [runUpdateAll, runUpdateResults, runUpdateLoop_overall, runUpdateLoop_results]

/-- C6 counterexample: a target whose `backup_config` call fails (the
source cannot distinguish an I/O failure from an absent `config`; both
return `False`) is *not* short-circuited: the wipe, install and deps
steps still run, and the target reports success — against the claim
that any step's failure short-circuits all remaining steps. -/
theorem backup_failure_does_not_short_circuit :
    (deployTarget backupFail true).2 = [Step.backup, Step.wipe, Step.install, Step.deps] ∧
    Step.wipe ∈ (deployTarget backupFail true).2 ∧
    (deployTarget backupFail true).1 = true := by decide

set_option synthInstance.maxSize 512 in
/-- C6 amended: the steps run in the fixed order backup, wipe, install,
restore, deps (every attempted-step list is a sublist of that order);
failures of wipe, install, restore or dependency extraction
short-circuit the remaining steps for that target only, while a backup
failure (I/O error or absent config alike) does not short-circuit — it
only disables the restore step and does not itself mark the target
failed; and each target's result depends on its own outcomes only. -/
theorem deploy_step_order_and_short_circuit :
    (∀ (o : StepOutcomes) (nd : Bool),
      ((deployTarget o nd).2.Sublist
          [Step.backup, Step.wipe, Step.install, Step.restore, Step.deps] ∧
        Step.backup ∈ (deployTarget o nd).2) ∧
      (o.clean = false →
        (deployTarget o nd).2 = [Step.backup, Step.wipe] ∧ (deployTarget o nd).1 = false) ∧
      (o.clean = true → o.install = false →
        (deployTarget o nd).2 = [Step.backup, Step.wipe, Step.install] ∧
          (deployTarget o nd).1 = false) ∧
      (o.backup = true → o.clean = true → o.install = true → o.restore = false →
        (deployTarget o nd).2 = [Step.backup, Step.wipe, Step.install, Step.restore] ∧
          (deployTarget o nd).1 = false) ∧
      (o.backup = false →
        Step.restore ∉ (deployTarget o nd).2 ∧ Step.wipe ∈ (deployTarget o nd).2) ∧
      ((deployTarget o nd).1 = true ↔
        o.clean = true ∧ o.install = true ∧ (o.backup = true → o.restore = true) ∧
          (nd = true → o.deps = true))) ∧
    (∀ (outs : List StepOutcomes) (nd : Bool),
      runUpdateResults outs nd = outs.map fun o => (deployTarget o nd).1) := by
  refine ⟨fun o nd => ?_, fun outs nd => runUpdateLoop_results nd outs true⟩
  obtain ⟨b, c, i, r, d⟩ := o
  cases b <;> cases c <;> cases i <;> cases r <;> cases d <;> cases nd <;> decide

/-! ## The config-backup key (C8) -/

/-- `hexDigit` is injective on digit values. -/
theorem hexDigit_inj_fin : ∀ a b : Fin 16, hexDigit a.val = hexDigit b.val → a = b := by decide

/-- `hexDigit` is injective below 16. -/
theorem hexDigit_injOn {a b : Nat} (ha : a < 16) (hb : b < 16)
    (h : hexDigit a = hexDigit b) : a = b :=
  congrArg Fin.val (hexDigit_inj_fin ⟨a, ha⟩ ⟨b, hb⟩ h)

/-- The fixed-width hex rendering is injective below `2^32`. -/
theorem toHex8_inj {m n : Nat} (hm : m < 4294967296) (hn : n < 4294967296)
    (h : toHex8 m = toHex8 n) : m = n := by
  have hd := congrArg String.data h
  simp only [toHex8, List.cons.injEq, and_true] at hd
  obtain ⟨e7, e6, e5, e4, e3, e2, e1, e0⟩ := hd
  have d7 := hexDigit_injOn (Nat.mod_lt _ (by norm_num)) (Nat.mod_lt _ (by norm_num)) e7
  have d6 := hexDigit_injOn (Nat.mod_lt _ (by norm_num)) (Nat.mod_lt _ (by norm_num)) e6
  have d5 := hexDigit_injOn (Nat.mod_lt _ (by norm_num)) (Nat.mod_lt _ (by norm_num)) e5
  have d4 := hexDigit_injOn (Nat.mod_lt _ (by norm_num)) (Nat.mod_lt _ (by norm_num)) e4
  have d3 := hexDigit_injOn (Nat.mod_lt _ (by norm_num)) (Nat.mod_lt _ (by norm_num)) e3
  have d2 := hexDigit_injOn (Nat.mod_lt _ (by norm_num)) (Nat.mod_lt _ (by norm_num)) e2
  have d1 := hexDigit_injOn (Nat.mod_lt _ (by norm_num)) (Nat.mod_lt _ (by norm_num)) e1
  have d0 := hexDigit_injOn (Nat.mod_lt _ (by norm_num)) (Nat.mod_lt _ (by norm_num)) e0
  norm_num at d7 d6 d5 d4 d3 d2 d1
  omega

/-- C8 amended: the backup key is a deterministic function of the
target path — two paths share a backup directory name exactly when
their (masked) CRC-32 values coincide, so equal paths always map to the
same key — but the derivation is a 32-bit CRC and is not injective:
distinct paths with colliding CRC-32 values share a key. -/
theorem backup_key_collision_iff_crc32 :
    ∀ p q : String,
      configBackupDirName p = configBackupDirName q ↔
        crc32 (utf8Bytes p) &&& 0xFFFFFFFF = crc32 (utf8Bytes q) &&& 0xFFFFFFFF := by
  intro p q
  constructor
  · intro h
    have hd := congrArg String.data h
    simp only [configBackupDirName] at hd
    have hx : (toHex8 (crc32 (utf8Bytes p) &&& 0xFFFFFFFF)).data
        = (toHex8 (crc32 (utf8Bytes q) &&& 0xFFFFFFFF)).data :=
      List.append_cancel_left hd
    exact toHex8_inj
      (Nat.lt_succ_of_le Nat.and_le_right) (Nat.lt_succ_of_le Nat.and_le_right)
      (String.ext hx)
  · intro h
    unfold configBackupDirName
    rw [h]

set_option maxRecDepth 4096 in
/-- C8 counterexample: two distinct target paths whose CRC-32 values
collide (`plumless` and `buckeroo`) receive the same backup directory
name, so their config backups clobber each other in the shared staging
area — the key derivation is not injective. -/
theorem backup_key_crc32_collision :
    configBackupDirName "plumless" = configBackupDirName "buckeroo" ∧
      "plumless" ≠ "buckeroo" := by decide

/-! ## Caching and resolution failure (C5, C7) -/

/-- A release of tag `v2.1.0` carrying a CLI and a GUI asset under the
default keywords. -/
def cachedRelease : ReleaseInfo :=
  { tag_name := "v2.1.0", body := "",
    assets := [⟨"M9A-win-x86_64-v2.1.0-Lite.zip", 100, "urlLite", ""⟩,
               ⟨"M9A-win-x86_64-v2.1.0-Full.zip", 200, "urlFull", ""⟩] }

/-- A fetch environment where both artifacts of the resolved version are
already staged, every verification passes and every download would
succeed. -/
def cachedEnv : FetchEnv :=
  { cached := ["M9A-win-x86_64-v2.1.0-Lite.zip", "M9A-win-x86_64-v2.1.0-Full.zip"],
    downloadOk := fun _ => true, verifyOk := fun _ => true,
    liteHasDeps := fun _ => false, fullDownloadEnabled := true }

/-- C5: with both artifacts of the resolved version staged and passing
verification, the CLI cache hit short-circuits its download
(`cliFetches = 0`), but the GUI cache lookup uses the glob
`M9A-win-x86_64-{tag without v}-{keyword}.zip`, which lacks the `v` that
every matching asset name carries, so it cannot match the staged file
and the GUI artifact is fetched again (`guiFetches = 1`) even though its
verified copy sits in the staging directory. -/
theorem gui_cache_lookup_never_hits :
    downloadLatestRelease cachedRelease cachedEnv =
      some ⟨["M9A-win-x86_64-v2.1.0-Lite.zip", "M9A-win-x86_64-v2.1.0-Full.zip"],
            "Lite", "Full", 0, 1⟩ ∧
    guiCacheGlob (stripV "v2.1.0") "Full" = "M9A-win-x86_64-2.1.0-Full.zip" ∧
    globMatch (guiCacheGlob (stripV "v2.1.0") "Full").data
        "M9A-win-x86_64-v2.1.0-Full.zip".data = false ∧
    cachedEnv.verifyOk "M9A-win-x86_64-v2.1.0-Full.zip" = true := by decide

/-- When no asset name matches the resolved CLI pattern,
`download_latest_release` returns `None` (the fetch phase fails). -/
theorem downloadLatestRelease_none_of_no_cli_match (rel : ReleaseInfo) (env : FetchEnv)
    (h : rel.assets.all
        (fun a => !assetMatches (zipPattern (parseReleaseKeywords rel.body).cli) a.name) = true) :
    downloadLatestRelease rel env = none := by
  have hfil : rel.assets.filter
      (fun a => assetMatches (zipPattern (parseReleaseKeywords rel.body).cli) a.name) = [] := by
    rw [List.filter_eq_nil_iff]
    intro a ha
    simpa using List.all_eq_true.mp h a ha
  simp [downloadLatestRelease, findDownloadUrl, hfil]

/-- A release with no assets at all (so in particular no CLI match). -/
def noCliRelease : ReleaseInfo := ⟨"v1.0.0", "", []⟩

/-- C7 counterexample: when the release has no asset matching the
minimal-variant pattern, `download_latest_release` fails, but
`run_update` then falls back to `find_lite_zip`; with a matching local
CLI zip present the run proceeds, deploys the target and returns
success — it neither returns failure nor aborts before touching
targets. -/
theorem no_cli_asset_falls_back_to_local :
    downloadLatestRelease noCliRelease cachedEnv = none ∧
    runUpdate noCliRelease cachedEnv (some "Temp/M9A-win-x86_64-v1.0.0-Lite.zip") [allOk] =
      (true, [true]) := by decide

/-- C7 amended: when the release has no asset matching the
minimal-variant pattern *and* the local fallback (`find_lite_zip` over
the staging folder and the current directory) also finds no candidate,
the run returns failure and processes no target. -/
theorem no_cli_asset_and_no_local_fatal (rel : ReleaseInfo) (env : FetchEnv)
    (outs : List StepOutcomes)
    (h : rel.assets.all
        (fun a => !assetMatches (zipPattern (parseReleaseKeywords rel.body).cli) a.name) = true) :
    runUpdate rel env none outs = (false, []) := by
  unfold runUpdate
  rw [downloadLatestRelease_none_of_no_cli_match rel env h]

/-- C7 amended, witnessed at a release with no assets. -/
theorem no_cli_asset_and_no_local_fatal_witness :
    noCliRelease.assets.all
        (fun a => !assetMatches (zipPattern (parseReleaseKeywords noCliRelease.body).cli) a.name)
      = true ∧
    runUpdate noCliRelease cachedEnv none [allOk] = (false, []) :=
  ⟨by decide, no_cli_asset_and_no_local_fatal noCliRelease cachedEnv [allOk] (by decide)⟩

/-! ## Smallest-GUI-asset selection (C3) -/

/-- Membership is preserved by size-ordered insertion. -/
theorem mem_insertBySize {x a : Asset} {l : List Asset} :
    x ∈ insertBySize a l ↔ x = a ∨ x ∈ l := by
  induction l with
  | nil => simp [insertBySize]
  | cons b bs ih =>
    simp only [insertBySize]
    by_cases h : a.size < b.size
    · simp [h]
    · simp only [h, if_false, List.mem_cons, ih]
      tauto

/-- The head of the size-sorted list is a member of minimal size. -/
theorem sortBySize_head_min (l : List Asset) (hne : l ≠ []) :
    ∃ c rest, sortBySize l = c :: rest ∧ c ∈ l ∧ ∀ b ∈ l, c.size ≤ b.size := by
  induction l with
  | nil => cases hne rfl
  | cons a as ih =>
    cases as with
    | nil => exact ⟨a, [], rfl, by simp, by simp⟩
    | cons a' as' =>
      obtain ⟨c, rest, hs, hmem, hmin⟩ := ih (by simp)
      simp only [sortBySize] at hs ⊢
      rw [hs]
      by_cases h : a.size < c.size
      · refine ⟨a, c :: rest, by simp [insertBySize, h], by simp, ?_⟩
        intro b hb
        rcases List.mem_cons.mp hb with rfl | hb'
        · exact le_refl _
        · exact le_trans (le_of_lt h) (hmin b hb')
      · refine ⟨c, insertBySize a rest, by simp [insertBySize, h],
          List.mem_cons_of_mem a hmem, ?_⟩
        intro b hb
        rcases List.mem_cons.mp hb with rfl | hb'
        · exact Nat.le_of_not_lt h
        · exact hmin b hb'

/-- C3: whenever at least one asset matches a full-variant (GUI)
pattern, `download_latest_release`'s inline selection (sort the
candidate list by size, take the head) picks a matching asset of
globally minimal byte size; under pairwise-distinct sizes it is *the*
unique minimum.  The selection is a pure function of the release's
asset list, hence deterministic; the source downloads the chosen
asset's `browser_download_url`. -/
theorem gui_selection_minimum_size (rel : ReleaseInfo) (pats : List String) (x : Asset)
    (hx : x ∈ guiMatched rel pats) :
    ∃ c, selectGuiAsset rel pats = some c ∧ c ∈ guiMatched rel pats ∧
      (∀ b ∈ guiMatched rel pats, c.size ≤ b.size) ∧
      ((guiMatched rel pats).Pairwise (fun a b => a.size ≠ b.size) →
        ∀ b ∈ guiMatched rel pats, b ≠ c → c.size < b.size) := by
  have hne : guiMatched rel pats ≠ [] := List.ne_nil_of_mem hx
  obtain ⟨c, rest, hs, hmem, hmin⟩ := sortBySize_head_min _ hne
  refine ⟨c, by simp [selectGuiAsset, hs], hmem, hmin, ?_⟩
  intro hpw b hb hbc
  exact lt_of_le_of_ne (hmin b hb)
    (List.Pairwise.forall (fun _ _ h => Ne.symm h) hpw hmem hb fun h => hbc (h ▸ rfl))

/-- The spec's own example release: two GUI-flavour assets of 95 MB and
40 MB. -/
def multiGuiRelease : ReleaseInfo :=
  { tag_name := "v2.1.0", body := "",
    assets := [⟨"M9A-win-x86_64-v2.1.0-Gamma.zip", 95, "urlGamma", ""⟩,
               ⟨"M9A-win-x86_64-v2.1.0-Delta.zip", 40, "urlDelta", ""⟩] }

/-- C3, witnessed on the spec's example: both flavours match, and the
selection facts hold at that concrete release. -/
theorem gui_selection_minimum_size_witness :
    (⟨"M9A-win-x86_64-v2.1.0-Gamma.zip", 95, "urlGamma", ""⟩ : Asset) ∈
        guiMatched multiGuiRelease [zipPattern "Gamma", zipPattern "Delta"] ∧
    (∃ c, selectGuiAsset multiGuiRelease [zipPattern "Gamma", zipPattern "Delta"] = some c ∧
      c ∈ guiMatched multiGuiRelease [zipPattern "Gamma", zipPattern "Delta"] ∧
      (∀ b ∈ guiMatched multiGuiRelease [zipPattern "Gamma", zipPattern "Delta"],
        c.size ≤ b.size) ∧
      ((guiMatched multiGuiRelease [zipPattern "Gamma", zipPattern "Delta"]).Pairwise
          (fun a b => a.size ≠ b.size) →
        ∀ b ∈ guiMatched multiGuiRelease [zipPattern "Gamma", zipPattern "Delta"],
          b ≠ c → c.size < b.size)) :=
  ⟨by decide,
    gui_selection_minimum_size multiGuiRelease [zipPattern "Gamma", zipPattern "Delta"]
      ⟨"M9A-win-x86_64-v2.1.0-Gamma.zip", 95, "urlGamma", ""⟩ (by decide)⟩

/-! ## Config preservation across one deployment (C9) -/

/-- Looking up a config path in the config-restriction of a tree equals
looking it up in the tree itself. -/
theorem lookup_filter_isConfig (fs : FileTree) (p : String) (hp : isConfigPath p = true) :
    (fs.filter fun e => isConfigPath e.1).lookup p = fs.lookup p := by
  induction fs with
  | nil => rfl
  | cons e fs ih =>
    by_cases h : isConfigPath e.1
    · simp [List.filter_cons, h, List.lookup, ih]
    · have hne : (p == e.1) = false := by
        refine beq_eq_false_iff_ne.mpr fun heq => ?_
        rw [← heq] at h
        exact h hp
      simp [List.filter_cons, h, List.lookup, hne, ih]

/-- A tree none of whose entries lies under `config/` binds no config
path. -/
theorem lookup_none_of_all_not_config (ar : FileTree) (p : String)
    (h : ar.all (fun e => !isConfigPath e.1) = true) (hp : isConfigPath p = true) :
    ar.lookup p = none := by
  induction ar with
  | nil => rfl
  | cons e ar ih =>
    simp only [List.all_cons, Bool.and_eq_true] at h
    have hne : (p == e.1) = false := by
      refine beq_eq_false_iff_ne.mpr fun heq => ?_
      rw [← heq] at h
      simp [hp] at h
    simp [List.lookup, hne, ih h.2]

/-- C9: for a target with a pre-existing `config` subtree and a fresh
backup slot (the `ConfigBackup` lifecycle: created at the start of this
target's deployment), installing an archive that carries no `config`
entry of its own leaves every config path bound exactly as before the
backup → wipe → install → restore cycle. -/
theorem config_subtree_roundtrip_noop (archive : FileTree) (t : TState) (p : String)
    (hslot : t.slot = []) (harch : archive.all (fun e => !isConfigPath e.1) = true)
    (hcfg : (t.fs.any fun e => isConfigPath e.1) = true) (hp : isConfigPath p = true) :
    (deployCycle archive t).fs.lookup p = t.fs.lookup p := by
  have hb : backupConfig t =
      (TState.mk t.fs ((t.fs.filter fun e => isConfigPath e.1) ++ t.slot) true, true) := by
    simp [backupConfig, hcfg]
  simp only [deployCycle, hb, cleanFolder, installZip, restoreConfig, if_true]
  rw [hslot]
  simp only [List.append_nil]
  rw [List.lookup_append, lookup_filter_isConfig t.fs p hp,
    lookup_none_of_all_not_config archive p harch hp]
  cases t.fs.lookup p <;> rfl

/-- An archive with no `config` entries. -/
def demoArchive : FileTree := [("main.exe", "new-binary"), ("resource/base.json", "data")]

/-- A target with a pre-existing config subtree and a fresh backup
slot. -/
def demoTarget : TState :=
  { fs := [("config/user.json", "keep-me"), ("main.exe", "old-binary")],
    slot := [], slotExists := false }

/-- C9, witnessed on a concrete target and archive. -/
theorem config_subtree_roundtrip_noop_witness :
    demoTarget.slot = [] ∧
    demoArchive.all (fun e => !isConfigPath e.1) = true ∧
    (demoTarget.fs.any fun e => isConfigPath e.1) = true ∧
    isConfigPath "config/user.json" = true ∧
    (deployCycle demoArchive demoTarget).fs.lookup "config/user.json" =
      demoTarget.fs.lookup "config/user.json" :=
  ⟨rfl, by decide, by decide, by decide,
    config_subtree_roundtrip_noop demoArchive demoTarget "config/user.json" rfl
      (by decide) (by decide) (by decide)⟩

/-! ## Digest casing (C1) -/

/-- Whatever `searchHex64` returns consists of lowercase hex digits. -/
theorem searchHex64_all_lower (cs w : List Char) (h : searchHex64 cs = some w) :
    w.all isHexLower = true := by
  induction cs with
  | nil => cases h
  | cons c rest ih =>
    simp only [searchHex64] at h
    split at h
    · cases h
      next hcond =>
        simp only [Bool.and_eq_true] at hcond
        exact hcond.2
    · exact ih h

/-- A digest recovered from the release body is always lowercase: the
source lowercases the line before extracting the 64-hex-digit token. -/
theorem bodyDigest_lowercase (body name d : String)
    (h : bodyDigest body name = some d) : d.data.all isHexLower = true := by
  unfold bodyDigest at h
  obtain ⟨w, hw, rfl⟩ := Option.map_eq_some'.mp h
  obtain ⟨line, _, hf⟩ := List.exists_of_findSome?_eq_some hw
  split at hf
  · exact searchHex64_all_lower _ _ hf
  · cases hf

/-- C1 amended: for an asset with a published digest, verification of a
structurally valid archive succeeds iff the *lowercase hex rendering*
of the file's SHA-256 equals the published digest exactly, as a
case-sensitive string.  Digests recovered from the release body are
always lowercase (the line is lowercased before extraction), so for
them string equality coincides with byte equality; an asset-descriptor
digest is compared with its casing preserved, so an uppercase-hex
descriptor digest never verifies even when its bytes match. -/
theorem verify_compares_exact_hex_strings (fileBytes : List Nat) (rel : ReleaseInfo)
    (name d : String) (h : getAssetSha256 rel name = some d) :
    (verifyZipIntegrity true fileBytes rel name = true ↔ sha256hex fileBytes = d) ∧
    (∀ d' : String, bodyDigest rel.body name = some d' → d'.data.all isHexLower = true) := by
  refine ⟨?_, fun d' hd' => bodyDigest_lowercase rel.body name d' hd'⟩
  simp [verifyZipIntegrity, h]

/-- A release publishing the (lowercase) digest of the empty file for
its CLI asset. -/
def lowerDigestRelease : ReleaseInfo :=
  ⟨"v1.0.0", "",
   [⟨"M9A-win-x86_64-v1.0.0-Lite.zip", 1, "urlL",
     "sha256:e3b0c44298fc1c149afbf4c8996fb92427ae41e4649b934ca495991b7852b855"⟩]⟩

/-- C1 amended, witnessed at a concrete release and file. -/
theorem verify_compares_exact_hex_strings_witness :
    getAssetSha256 lowerDigestRelease "M9A-win-x86_64-v1.0.0-Lite.zip" =
      some "e3b0c44298fc1c149afbf4c8996fb92427ae41e4649b934ca495991b7852b855" ∧
    ((verifyZipIntegrity true [] lowerDigestRelease "M9A-win-x86_64-v1.0.0-Lite.zip" = true ↔
        sha256hex [] = "e3b0c44298fc1c149afbf4c8996fb92427ae41e4649b934ca495991b7852b855") ∧
      (∀ d' : String,
        bodyDigest lowerDigestRelease.body "M9A-win-x86_64-v1.0.0-Lite.zip" = some d' →
          d'.data.all isHexLower = true)) :=
  ⟨by decide,
    verify_compares_exact_hex_strings [] lowerDigestRelease "M9A-win-x86_64-v1.0.0-Lite.zip"
      "e3b0c44298fc1c149afbf4c8996fb92427ae41e4649b934ca495991b7852b855" (by decide)⟩

/-- The same release, but with the digest's hex digits uppercased in
the asset descriptor. -/
def upperDigestRelease : ReleaseInfo :=
  ⟨"v1.0.0", "",
   [⟨"M9A-win-x86_64-v1.0.0-Lite.zip", 1, "urlL",
     "sha256:E3B0C44298FC1C149AFBF4C8996FB92427AE41E4649B934CA495991B7852B855"⟩]⟩

/-- C1 counterexample: an uppercase-hex published digest whose *bytes*
equal the SHA-256 of the local file's bytes (here the empty file) is
published, yet verification of the structurally valid archive returns
`false` — the comparison is case-sensitive on the asset-descriptor
path. -/
theorem uppercase_digest_fails_despite_matching_bytes :
    getAssetSha256 upperDigestRelease "M9A-win-x86_64-v1.0.0-Lite.zip" =
      some "E3B0C44298FC1C149AFBF4C8996FB92427AE41E4649B934CA495991B7852B855" ∧
    hexDecode "E3B0C44298FC1C149AFBF4C8996FB92427AE41E4649B934CA495991B7852B855".data =
      sha256bytes [] ∧
    verifyZipIntegrity true [] upperDigestRelease "M9A-win-x86_64-v1.0.0-Lite.zip" = false := by
  decide

/-! ## Anchoring of filename matching (C10) -/

/-- Extending the input extends each class-consumption suffix. -/
theorem mem_classTails_append (cls : Char → Bool) (es : List Char) :
    ∀ (ds t : List Char), t ∈ classTails cls ds → (t ++ es) ∈ classTails cls (ds ++ es) := by
  intro ds
  induction ds with
  | nil => intro t ht; cases ht
  | cons d ds ih =>
    intro t ht
    simp only [classTails] at ht
    by_cases h : cls d
    · rw [if_pos h] at ht
      rw [List.cons_append]
      simp only [classTails, if_pos h]
      rcases List.mem_cons.mp ht with rfl | ht'
      · exact List.mem_cons_self _ _
      · exact List.mem_cons_of_mem _ (ih t ht')
    · rw [if_neg h] at ht
      cases ht

/-- `re.match` is anchored at the start only: a name accepted by the
compiled pattern stays accepted after appending arbitrary trailing
characters. -/
theorem matchToks_extend (cls : Char → Bool) :
    ∀ (ps : List PTok) (ds es : List Char),
      matchToks cls ps ds = true → matchToks cls ps (ds ++ es) = true := by
  intro ps
  induction ps with
  | nil => intro ds es _; rfl
  | cons p ps ih =>
    intro ds es h
    cases p with
    | lit c =>
      cases ds with
      | nil => simp [matchToks] at h
      | cons d ds' =>
        simp only [List.cons_append, matchToks, Bool.and_eq_true] at h ⊢
        exact ⟨h.1, ih ds' es h.2⟩
    | any =>
      cases ds with
      | nil => simp [matchToks] at h
      | cons d ds' =>
        simp only [List.cons_append, matchToks] at h ⊢
        exact ih ds' es h
    | star =>
      simp only [matchToks, List.any_eq_true] at h ⊢
      obtain ⟨t, ht, hm⟩ := h
      exact ⟨t ++ es, mem_classTails_append cls es ds t ht, ih t es hm⟩

/-- Every element of `tails ds` is a suffix of `ds`. -/
theorem mem_tails_suffix : ∀ (ds t : List Char), t ∈ tails ds → t <:+ ds := by
  intro ds
  induction ds with
  | nil =>
    intro t ht
    simp only [tails, List.mem_singleton] at ht
    subst ht
    exact List.suffix_refl _
  | cons d ds ih =>
    intro t ht
    simp only [tails, List.mem_cons] at ht
    rcases ht with rfl | ht'
    · exact List.suffix_refl _
    · exact (ih t ht').trans (List.suffix_cons d ds)

/-- A star-free glob pattern matches exactly itself. -/
theorem globMatch_nostar_eq : ∀ (ps ds : List Char), '*' ∉ ps → globMatch ps ds = true → ds = ps := by
  intro ps
  induction ps with
  | nil =>
    intro ds _ h
    simpa [globMatch, List.isEmpty_iff] using h
  | cons p ps ih =>
    intro ds hns h
    have hp : p ≠ '*' := fun hh => hns (hh ▸ List.mem_cons_self p ps)
    simp only [globMatch, if_neg hp] at h
    cases ds with
    | nil => cases h
    | cons d ds' =>
      simp only [Bool.and_eq_true, beq_iff_eq] at h
      obtain ⟨rfl, h2⟩ := h
      rw [ih ds' (fun hm => hns (List.mem_cons_of_mem _ hm)) h2]

/-- A glob pattern ending in a star-free literal tail only matches
names that end in that tail. -/
theorem globMatch_literal_suffix :
    ∀ (ps suf : List Char), '*' ∉ suf →
      ∀ ds, globMatch (ps ++ suf) ds = true → suf <:+ ds := by
  intro ps
  induction ps with
  | nil =>
    intro suf hns ds h
    rw [List.nil_append] at h
    rw [globMatch_nostar_eq suf ds hns h]
  | cons p ps ih =>
    intro suf hns ds h
    by_cases hp : p = '*'
    · subst hp
      simp only [List.cons_append, globMatch, eq_self_iff_true, if_true,
        List.any_eq_true] at h
      obtain ⟨t, ht, hm⟩ := h
      exact (ih suf hns t hm).trans (mem_tails_suffix ds t ht)
    · simp only [List.cons_append, globMatch, if_neg hp] at h
      cases ds with
      | nil => cases h
      | cons d ds' =>
        simp only [Bool.and_eq_true] at h
        exact (ih suf hns ds' h.2).trans (List.suffix_cons d ds')

/-- C10 amended: matching against the compiled filename patterns is
anchored at the start only, so a name accepted by the pattern stays
accepted with arbitrary trailing characters — and this is the whole
acceptance test in release-asset selection and GUI-asset collection;
in the local CLI/GUI zip lookup, however, candidates are first
collected by the glob `M9A-win-x86_64-v*-*.zip`, which is anchored at
both ends, so a local candidate must additionally end in `.zip`. -/
theorem pattern_matching_prefix_anchored :
    (∀ (cls : Char → Bool) (ps : List PTok) (ds es : List Char),
        matchToks cls ps ds = true → matchToks cls ps (ds ++ es) = true) ∧
    (∀ (pat name ext : String),
        assetMatches pat name = true → assetMatches pat (name ++ ext) = true) ∧
    (∀ (cliKeyword name : String),
        liteCandidate cliKeyword name = true → ".zip".data <:+ name.data) := by
  refine ⟨matchToks_extend, fun pat name ext h => matchToks_extend _ _ _ _ h, ?_⟩
  intro cliKeyword name h
  simp only [liteCandidate, Bool.and_eq_true] at h
  have hsplit : liteGlob.data = "M9A-win-x86_64-v*-*".data ++ ".zip".data := by decide
  refine globMatch_literal_suffix "M9A-win-x86_64-v*-*".data ".zip".data (by decide) name.data ?_
  rw [← hsplit]
  exact h.1

/-- C10 counterexample: the name `M9A-win-x86_64-v2.1.0-Lite.zip.bak`
(trailing characters after `.zip`) is accepted by the release-asset
regex and by the local-lookup regex, but it is *not* a candidate in
`find_lite_zip`: the glob prefilter requires the name to end in
`.zip`. -/
theorem trailing_characters_rejected_in_local_lookup :
    assetMatches (zipPattern "Lite") "M9A-win-x86_64-v2.1.0-Lite.zip.bak" = true ∧
    matchToks liteClass (compilePattern (zipPattern "Lite").data)
        "M9A-win-x86_64-v2.1.0-Lite.zip.bak".data = true ∧
    liteCandidate "Lite" "M9A-win-x86_64-v2.1.0-Lite.zip.bak" = false := by decide

end M9A
